import Mathlib

/-!
Verification of the verdaccio-az-blob storage adapter.

Shallow embedding of the adapter's core operations:
* the `locked` mutex wrapper (mutex.ts draft, `src/unnamed/part_003`),
* the blob-path / archive-directory derivation and the unpacked tarball
  read/write pipelines (`src/storage-handler.ts`),
* the manifest operations (`src/storage-handler.ts`),
* the package index and secret store (`src/storage.ts`, the version with
  lock-guarded `add`/`remove`).

The object store is modelled as an association list from blob keys (strings)
to blob payloads.  Backend faults (network failures, HTTP status codes) are
injected explicitly as `Option RestError` parameters; a blob that is absent
yields the 404 `RestError` that the Azure SDK raises.  JSON serialization of
opaque payloads (manifests, the index array) is modelled as the identity on
the payload, since no claim concerns serialization fidelity.

The async-lock `done`-callback discipline is made observable: each operation
that runs inside `lock.acquire(key, cb)` returns, besides its state effect,
the number of `done()` calls made (the lock is released when `done` runs) and
what the promise returned by `acquire` settles to (`none` = never settles,
which is what happens when the callback finishes without calling `done`).
-/

/-- An Azure SDK `RestError`: `statusCode` from the HTTP response, plus the
mutable `code` field that `readPackage` overwrites with `404`. -/
structure RestError where
  statusCode : Nat
  code : Option Nat
deriving DecidableEq, Repr

deriving instance DecidableEq for Except

/-- Association-list lookup over blob keys, modelling a blob download /
existence check against the container. -/
def lookupBlob {A : Type} : List (String × A) → String → Option A
  | [], _ => none
  | (k, v) :: rest, key => if k = key then some v else lookupBlob rest key

/-- Association-list overwrite, modelling a blob upload (full overwrite). -/
def upsertBlob {A : Type} : List (String × A) → String → A → List (String × A)
  | [], key, v => [(key, v)]
  | (k, w) :: rest, key, v =>
      if k = key then (k, v) :: rest else (k, w) :: upsertBlob rest key v

/-! ## The `locked` mutex wrapper (src/unnamed/part_003)

```js
export async function locked<T>(key, cb) {
    return new Promise((resolve) => {
        lock.acquire(key, async done => {
            const response = await cb();
            done()
            resolve(response)
        });
    });
}
```

The callback passed to `lock.acquire` takes a `done` argument, so async-lock
runs it in callback mode and releases the key only when `done` is invoked.
If `await cb()` throws, control leaves the async callback before `done()` and
before `resolve(response)`: the key is never released and the promise
returned by `locked` never settles (the rejection is unhandled).  The model
runs `cb` to its outcome (`Except`) and records the number of `done()` calls
together with what the returned promise settles to. -/

/-- Observable outcome of one `locked` call: how many times the critical
section was released (`done()` calls) and what the caller's promise settles
to (`none` = never settles). -/
structure LockedOutcome (E T : Type) where
  released : Nat
  settled : Option (Except E T)
deriving DecidableEq

/-- The `locked` wrapper of `src/unnamed/part_003`, applied to a callback
whose outcome is `cb`. -/
def locked {E T : Type} (cb : Except E T) : LockedOutcome E T :=
  match cb with
  | .ok v => ⟨1, some (.ok v)⟩
  | .error _ => ⟨0, none⟩

/-! ## Archive directory derivation (storage-handler.ts, getDirName)

```js
private getDirName(tarballName: string): string {
    return tarballName.split('-').pop()!.slice(0, -4);
}
```
-/

/-- JavaScript `s.split('-')` on the character list of `s`: split at every
`'-'`, keeping empty segments; always returns at least one segment. -/
def jsSplitDash : List Char → List (List Char)
  | [] => [[]]
  | c :: rest =>
    match jsSplitDash rest with
    | [] => [[c]]
    | p :: ps => if c = '-' then [] :: p :: ps else (c :: p) :: ps

/-- JavaScript `s.slice(0, -4)`: drop the last four characters (empty result
when the string has four or fewer characters). -/
def jsSliceDropLast4 (l : List Char) : List Char := l.take (l.length - 4)

/-- `getDirName` on character lists: last `'-'`-separated segment with the
final four characters removed. -/
def getDirNameChars (t : List Char) : List Char :=
  jsSliceDropLast4 ((jsSplitDash t).getLastD [])

/-- `getDirName` of `storage-handler.ts`:
`tarballName.split('-').pop()!.slice(0, -4)`. -/
def getDirName (t : String) : String := String.mk (getDirNameChars t.data)

/-! ## Tarball blob layout (storage-handler.ts, unpacked mode)

`getPath(name)` is `` `${this.packageName}/${name}` ``.

`writeUnpackedTarball` pipes the tunnel through gunzip and tar-extract and,
for each extracted entry `{name}` with its byte stream, uploads the bytes to
`getPath(dirName + "/" + name)` (with `dirName = getDirName(tarballName)`),
calling `next()` only after the upload completes, so entries are stored
strictly sequentially.  The model takes the logical decompressed entry
sequence of the incoming archive and folds the uploads over the store.

`readUnpackedTarbal` lists blobs whose key starts with
`prefix = getPath(dirName)` (note: no trailing slash) and, for each listed
blob name (a full container key), downloads `getPath(name)` — prefixing the
package name a second time — then opens a tar entry named
`name.slice(prefix.length)` and calls `entry.end()` immediately after
starting `blob.pipe(entry)`, i.e. before any blob bytes have been delivered,
so the entry is finalized with no content.  The model mirrors all three
facts: the re-prefixed download key (a missing blob raises the 404
`RestError`), the prefix-relative entry name, and the empty entry content. -/

/-- `getPath` of `storage-handler.ts`: `` `${packageName}/${name}` ``. -/
def getPath (packageName name : String) : String := packageName ++ "/" ++ name

/-- Blob store for tarball contents: container key to byte list. -/
def TarStore : Type := List (String × List Nat)

/-- Character-list prefix test (the key-starts-with-prefix check of the
backend's prefix listing). -/
def charsStartWith : List Char → List Char → Bool
  | _, [] => true
  | [], _ :: _ => false
  | c :: cs, p :: ps => c = p && charsStartWith cs ps

/-- JavaScript `s.slice(n)`: drop the first `n` characters. -/
def jsSliceFrom (s : String) (n : Nat) : String := String.mk (s.data.drop n)

/-- `listBlobsFlat({ prefix })`: the keys in the store that start with the
given string, in store order. -/
def listBlobNames (store : TarStore) (pfx : String) : List String :=
  (store.filter (fun kv => charsStartWith kv.1.data pfx.data)).map Prod.fst

/-- `writeUnpackedTarball` of `storage-handler.ts`: store each entry of the
(decompressed, unpacked) archive at
`getPath(getDirName(tarballName) + "/" + entryName)`, sequentially. -/
def writeUnpackedTarball (store : TarStore) (packageName tarballName : String)
    (entries : List (String × List Nat)) : TarStore :=
  entries.foldl
    (fun st e =>
      upsertBlob st (getPath packageName (getDirName tarballName ++ "/" ++ e.1)) e.2)
    store

/-- `readUnpackedTarbal` of `storage-handler.ts`: list blobs under
`getPath(getDirName(tarballName))`, and for each listed key download
`getPath(key)` (the key re-prefixed with the package name; absence raises a
404 `RestError`, which the `catch` re-raises), emitting a tar entry named
`key.slice(prefix.length)` whose content is what the entry holds when
`entry.end()` runs — nothing, since `end()` is called synchronously right
after `blob.pipe(entry)` starts. -/
def readUnpackedTarbal (store : TarStore) (packageName tarballName : String) :
    Except RestError (List (String × List Nat)) :=
  let pfx := getPath packageName (getDirName tarballName)
  (listBlobNames store pfx).foldl
    (fun acc name =>
      match acc with
      | .error e => .error e
      | .ok entries =>
        match lookupBlob store (getPath packageName name) with
        | none => .error ⟨404, none⟩
        | some _ => .ok (entries ++ [(jsSliceFrom name pfx.data.length, [])]))
    (.ok [])

/-! ## Manifest operations (storage-handler.ts)

`manifestBlobClient` targets `getPath('package.json')`, a single key fixed at
handler construction; `savePackage`, `createPackage`, `readPackage` and
`updatePackage` all take a `name` argument and never use it for the blob
path.  Manifest payloads are opaque (`M`); `JSON.stringify`/`JSON.parse` of
the payload is modelled as the identity.  Backend faults other than absence
are injected through an `Option RestError` parameter. -/

/-- The fixed manifest key `` `${packageName}/package.json` `` targeted by
`manifestBlobClient`. -/
def manifestKey (packageName : String) : String :=
  getPath packageName "package.json"

/-- `_readPackage` of `storage-handler.ts`: `downloadToBuffer` on the fixed
manifest blob (absence raises the Azure 404 `RestError`; an injected fault is
raised as-is), then `JSON.parse`. -/
def _readPackage {M : Type} (s : List (String × M)) (packageName : String)
    (fault : Option RestError) : Except RestError M :=
  match fault with
  | some e => .error e
  | none =>
    match lookupBlob s (manifestKey packageName) with
    | none => .error ⟨404, none⟩
    | some m => .ok m

/-- `readPackage` of `storage-handler.ts`: `_readPackage`, and in the catch
branch set `e.code = 404` and rethrow when `e.statusCode === 404`, otherwise
log and rethrow the error unchanged. -/
def readPackage {M : Type} (s : List (String × M)) (packageName name : String)
    (fault : Option RestError) : Except RestError M :=
  match _readPackage s packageName fault with
  | .ok m => .ok m
  | .error e =>
    if e.statusCode = 404 then .error ⟨e.statusCode, some 404⟩ else .error e

/-- `savePackage` of `storage-handler.ts`: `JSON.stringify` the manifest and
upload it to the fixed `manifestBlobClient` key (the `name` argument is
unused). -/
def savePackage {M : Type} (s : List (String × M)) (packageName name : String)
    (m : M) : List (String × M) :=
  upsertBlob s (manifestKey packageName) m

/-- `createPackage` of `storage-handler.ts`: delegates to `savePackage`. -/
def createPackage {M : Type} (s : List (String × M)) (packageName name : String)
    (m : M) : List (String × M) :=
  savePackage s packageName name m

/-- Observable outcome of `updatePackage`: the result it returns (or error it
throws), the store afterwards, and which mutex keys the call acquired. -/
structure UpdateOutcome (M : Type) where
  result : Except RestError M
  store : List (String × M)
  locksAcquired : List String
deriving DecidableEq

/-- `updatePackage` of `storage-handler.ts` (the canonical `src/` version):
`_readPackage`, apply `handleUpdate`, return the transformed manifest; the
catch branch logs and rethrows.  No upload, and no `lock.acquire` call
anywhere in the function. -/
def updatePackage {M : Type} (s : List (String × M)) (packageName name : String)
    (handleUpdate : M → Except RestError M) (fault : Option RestError) :
    UpdateOutcome M :=
  match _readPackage s packageName fault with
  | .error e => ⟨.error e, s, []⟩
  | .ok m =>
    match handleUpdate m with
    | .error e => ⟨.error e, s, []⟩
    | .ok um => ⟨.ok um, s, []⟩

/-! ## Package index (storage.ts)

State of the index: the `packages-list.json` blob (an ordered JSON array of
names, held here in parsed form) and the in-memory `this.packages` cache.
`add`, `remove` and `get` each run inside
`lock.acquire(PACKAGES_LIST_BLOB, async done => ...)`; the outcome records
the `done()` calls (lock releases) and what the acquired promise settles to.
In `remove`, the absent-name branch logs and `return`s without calling
`done()`. -/

/-- Index state: the backing `packages-list.json` blob (in parsed form;
`none` = blob absent) and the in-memory `this.packages` cache (`null` at
construction). -/
structure IdxState where
  blob : Option (List String)
  cache : Option (List String)
deriving DecidableEq, Repr

/-- Outcome of one index operation run under `lock.acquire`: what the
promise settles to (`none` = never), the state afterwards, and the number of
`done()` calls (lock releases). -/
structure AcquireOutcome (A : Type) where
  settled : Option (Except RestError A)
  state : IdxState
  released : Nat
deriving DecidableEq

/-- `getPackages` of `storage.ts`: return the cache if set; else download and
parse the index blob, caching the result; a 404 (absent blob, or an injected
fault with status 404) yields `[]` without caching; any other injected fault
is logged and rethrown. -/
def getPackages (s : IdxState) (fault : Option RestError) :
    Except RestError (List String) × IdxState :=
  match s.cache with
  | some ps => (.ok ps, s)
  | none =>
    match fault with
    | some e => if e.statusCode = 404 then (.ok [], s) else (.error e, s)
    | none =>
      match s.blob with
      | none => (.ok [], s)
      | some ps => (.ok ps, ⟨some ps, some ps⟩)

/-- `updatePackages` of `storage.ts`: serialize and upload the new list, then
set the cache; on upload failure (injected fault) log and rethrow, leaving
both blob and cache untouched. -/
def updatePackages (s : IdxState) (newPackages : List String)
    (fault : Option RestError) : Except RestError Unit × IdxState :=
  match fault with
  | some e => (.error e, s)
  | none => (.ok (), ⟨some newPackages, some newPackages⟩)

/-- `add` of `storage.ts`: under the `packages-list.json` key, fetch the
current list, `done()` immediately if `name` is present, else persist the
appended list and `done()`; a thrown error reaches the catch, which calls
`done(e)`. -/
def add (s : IdxState) (name : String) (dlFault upFault : Option RestError) :
    AcquireOutcome Unit :=
  match getPackages s dlFault with
  | (.error e, s₁) => ⟨some (.error e), s₁, 1⟩
  | (.ok packages, s₁) =>
    if name ∈ packages then ⟨some (.ok ()), s₁, 1⟩
    else
      match updatePackages s₁ (packages ++ [name]) upFault with
      | (.error e, s₂) => ⟨some (.error e), s₂, 1⟩
      | (.ok _, s₂) => ⟨some (.ok ()), s₂, 1⟩

/-- `remove` of `storage.ts`: under the same key, fetch the current list; if
`name` is absent, log a warning and `return` — without calling `done()`, so
the promise never settles and the key is never released; otherwise persist
the filtered list and `done()`; a thrown error reaches the catch, which calls
`done(e)`. -/
def remove (s : IdxState) (name : String) (dlFault upFault : Option RestError) :
    AcquireOutcome Unit :=
  match getPackages s dlFault with
  | (.error e, s₁) => ⟨some (.error e), s₁, 1⟩
  | (.ok packages, s₁) =>
    if name ∈ packages then
      match updatePackages s₁ (packages.filter (fun p => p ≠ name)) upFault with
      | (.error e, s₂) => ⟨some (.error e), s₂, 1⟩
      | (.ok _, s₂) => ⟨some (.ok ()), s₂, 1⟩
    else ⟨none, s₁, 0⟩

/-- `get` of `storage.ts` (the host's `list()`): under the same key, fetch
the current list and `done(null, names)`; errors reach the catch's
`done(e)`. -/
def listPackages (s : IdxState) (dlFault : Option RestError) :
    AcquireOutcome (List String) :=
  match getPackages s dlFault with
  | (.error e, s₁) => ⟨some (.error e), s₁, 1⟩
  | (.ok ps, s₁) => ⟨some (.ok ps), s₁, 1⟩

/-- The list a `get()` call observes in a given state: the cache if set, the
blob's list otherwise, `[]` if the blob is absent. -/
def obsList (s : IdxState) : List String :=
  match s.cache with
  | some l => l
  | none => s.blob.getD []

/-- Entry coherence of an index state: the cache is unset or equals the
persisted blob.  Every state reachable through the index API satisfies it. -/
def Coherent (s : IdxState) : Prop := s.cache = none ∨ s.cache = s.blob

/-! ## Secret store (storage.ts)

```js
async getSecret() {
  return lock.acquire(SECRET_BLOB, async done => {
    if (this.secret) { done(null, this.secret); return; }
    if (!(await this.secretClient.exists())) { done(null, this.secret); return; }
    const buf = await this.secretClient.downloadToBuffer();
    done(null, buf.toString())
  });
}
async setSecret(secret) {
  return lock.acquire(SECRET_BLOB, async done => {
    await this.secretClient.upload(secret, secret.length);
    this.secret = secret;
    done();
  });
}
```

Note that the download branch of `getSecret` never assigns `this.secret`. -/

/-- Secret-store state: the `secret` blob and the in-memory `this.secret`
cache (the empty string at construction; JS truthiness of `this.secret` is
`secret ≠ ""`). -/
structure SecretState where
  blob : Option String
  secret : String
deriving DecidableEq, Repr

/-- Outcome of one `getSecret` call: the value the promise settles to, the
state afterwards, and how many blob downloads were performed. -/
structure SecretOutcome where
  value : String
  state : SecretState
  downloads : Nat
deriving DecidableEq, Repr

/-- `getSecret` of `storage.ts`: under the `secret` key, return the cached
value if truthy; else if the blob does not exist return `this.secret` (the
empty string); else download the blob and return its contents — without
assigning `this.secret`. -/
def getSecret (s : SecretState) : SecretOutcome :=
  if s.secret ≠ "" then ⟨s.secret, s, 0⟩
  else
    match s.blob with
    | none => ⟨s.secret, s, 0⟩
    | some v => ⟨v, s, 1⟩

/-- `setSecret` of `storage.ts`: under the same key, upload the new secret,
then set the cache. -/
def setSecret (s : SecretState) (v : String) : SecretState := ⟨some v, v⟩

/-! ## Helper lemmas -/

/-- Looking up the key just overwritten yields the uploaded payload. -/
theorem lookupBlob_upsertBlob_self {A : Type} (s : List (String × A))
    (k : String) (v : A) : lookupBlob (upsertBlob s k v) k = some v := by
  induction s with
  | nil => simp [upsertBlob, lookupBlob]
  | cons kv rest ih =>
    obtain ⟨k', w⟩ := kv
    by_cases h : k' = k
    · simp [upsertBlob, lookupBlob, h]
    · simp [upsertBlob, lookupBlob, h, ih]

/-! ## Claim theorems -/

/-- C1: in the `locked` wrapper, the critical section is released exactly
once and the operation's error propagates to the caller.  The code satisfies
only the normal-completion half: when the callback resolves with `v` the lock
is released once and the promise settles to `v`; but when the callback
throws, `done()` is never reached (the key is never released) and the
promise returned by `locked` never settles, so the error is swallowed
instead of propagated. -/
theorem locked_release_and_propagation :
    (∀ (v : Nat), locked (Except.ok v : Except RestError Nat) =
        ⟨1, some (.ok v)⟩) ∧
    (∀ (e : RestError), locked (Except.error e : Except RestError Nat) =
        ⟨0, none⟩) :=
  ⟨fun _ => rfl, fun _ => rfl⟩

/-- C2: the unpacked write/read round trip.  Writing the one-file archive
`[("package.json", bytes)]` under package `"pkg"` as `"pkg-1.0.0.tgz"` stores
the blob at `pkg/1.0.0/package.json`; reading it back lists that key but then
downloads `getPath(key) = pkg/pkg/1.0.0/package.json` — the package name
prefixed a second time — so the reconstruction throws the 404 `RestError`
instead of returning the original file set. -/
theorem unpacked_roundtrip_fails :
    readUnpackedTarbal
        (writeUnpackedTarball [] "pkg" "pkg-1.0.0.tgz" [("package.json", [123, 125])])
        "pkg" "pkg-1.0.0.tgz" = .error ⟨404, none⟩ ∧
    (Except.error ⟨404, none⟩ :
        Except RestError (List (String × List Nat))) ≠ .ok [("package.json", [123, 125])] :=
  ⟨rfl, by decide⟩

/-- C5: `remove` on an absent name.  From a fresh instance whose index blob
is `["a"]`, `remove "b"` leaves the persisted list `["a"]` (only the cache is
filled by the read), raises nothing — but the absent-name branch returns from
the lock callback without calling `done()`, so the promise never settles
(`settled = none`: the call never completes) and the index mutex key is never
released (`released = 0`). -/
theorem remove_absent_never_settles :
    remove ⟨some ["a"], none⟩ "b" none none = ⟨none, ⟨some ["a"], some ["a"]⟩, 0⟩ :=
  rfl

/-- C9: a missing manifest blob surfaces as a `RestError` whose `code` field
is set to `404` (the distinguishable NotFound marker), and any failure whose
status is not 404 is re-raised unchanged. -/
theorem readPackage_notfound_mapping :
    (∀ (M : Type) (s : List (String × M)) (packageName name : String),
        lookupBlob s (manifestKey packageName) = none →
        readPackage s packageName name none = .error ⟨404, some 404⟩) ∧
    (∀ (M : Type) (s : List (String × M)) (packageName name : String)
        (e : RestError), e.statusCode ≠ 404 →
        readPackage s packageName name (some e) = .error e) := by
  constructor
  · intro M s packageName name h
    simp [readPackage, _readPackage, h]
  · intro M s packageName name e he
    simp [readPackage, _readPackage, he]

/-- Witness for C9 at a concrete store: the empty store has no manifest for
`"left-pad"`, so `readPackage` yields the 404-marked error; an injected
status-500 error comes back unchanged. -/
theorem readPackage_notfound_mapping_witness :
    lookupBlob ([] : List (String × Nat)) (manifestKey "left-pad") = none ∧
    readPackage ([] : List (String × Nat)) "left-pad" "package.json" none =
      .error ⟨404, some 404⟩ ∧
    (⟨500, none⟩ : RestError).statusCode ≠ 404 ∧
    readPackage ([] : List (String × Nat)) "left-pad" "package.json"
      (some ⟨500, none⟩) = .error ⟨500, none⟩ :=
  ⟨rfl,
   readPackage_notfound_mapping.1 Nat [] "left-pad" "package.json" rfl,
   by decide,
   readPackage_notfound_mapping.2 Nat [] "left-pad" "package.json" ⟨500, none⟩
     (by decide)⟩

/-- C10: the manifest operations ignore their file-name argument: for any
names `n`, `n'`, `savePackage` writes the serialized manifest to the single
fixed key `packageName ++ "/" ++ "package.json"`, `createPackage` delegates
to it, and `readPackage` / `updatePackage` read from that same fixed key, so
a package has exactly one manifest blob. -/
theorem manifest_ops_fixed_key :
    ∀ (M : Type) (s : List (String × M)) (packageName n n' : String) (m : M)
      (f : M → Except RestError M) (fault : Option RestError),
      savePackage s packageName n m =
        upsertBlob s (packageName ++ "/" ++ "package.json") m ∧
      savePackage s packageName n m = savePackage s packageName n' m ∧
      createPackage s packageName n m = savePackage s packageName n m ∧
      readPackage s packageName n fault = readPackage s packageName n' fault ∧
      updatePackage s packageName n f fault = updatePackage s packageName n' f fault ∧
      lookupBlob (savePackage s packageName n m) (manifestKey packageName) = some m := by
  intro M s packageName n n' m f fault
  exact ⟨rfl, rfl, rfl, rfl, rfl, lookupBlob_upsertBlob_self s (manifestKey packageName) m⟩

/-- C4 counterexample: `updatePackage` in the canonical `storage-handler.ts`
acquires no mutex at all.  At a concrete store holding a manifest for
`"left-pad"`, the call reads, transforms and returns — but its set of
acquired mutex keys is empty, so in particular it never acquires the mutex
keyed by the file name `"package.json"`, contradicting the claim. -/
theorem updatePackage_no_mutex_counterexample :
    (updatePackage [(manifestKey "left-pad", 7)] "left-pad" "package.json"
        (fun m => .ok (m + 1)) none).locksAcquired = [] ∧
    "package.json" ∉ (updatePackage [(manifestKey "left-pad", 7)] "left-pad"
        "package.json" (fun m => .ok (m + 1)) none).locksAcquired ∧
    (updatePackage [(manifestKey "left-pad", 7)] "left-pad" "package.json"
        (fun m => .ok (m + 1)) none).result = .ok 8 := by
  refine ⟨rfl, ?_, rfl⟩
  decide

/-- C4 amended: for every file name and transform, `updatePackage` reads the
current manifest, applies the transform, and returns the transformed manifest
to the caller without persisting it — the store is unchanged from its value
before the call — but it acquires no mutex (the per-package locking exists
only in the draft version of the handler). -/
theorem updatePackage_amended (M : Type) (s : List (String × M))
    (packageName name : String) (f : M → Except RestError M) (m : M)
    (h : lookupBlob s (manifestKey packageName) = some m) :
    updatePackage s packageName name f none = ⟨f m, s, []⟩ ∧
    ∀ fault, (updatePackage s packageName name f fault).store = s ∧
      (updatePackage s packageName name f fault).locksAcquired = [] := by
  have h1 : _readPackage s packageName none = .ok m := by
    simp [_readPackage, h]
  constructor
  · unfold updatePackage
    rw [h1]
    cases hf : f m <;> simp [hf]
  · intro fault
    unfold updatePackage
    cases fault with
    | none =>
      rw [h1]
      cases hf : f m <;> simp [hf]
    | some e => simp [_readPackage]

/-- Witness for C4's amended theorem at a concrete store and transform. -/
theorem updatePackage_amended_witness :
    lookupBlob [(manifestKey "p", (0 : Nat))] (manifestKey "p") = some 0 ∧
    (updatePackage [(manifestKey "p", (0 : Nat))] "p" "x"
        (fun m => .ok (m + 1)) none = ⟨.ok 1, [(manifestKey "p", 0)], []⟩ ∧
      ∀ fault,
        (updatePackage [(manifestKey "p", (0 : Nat))] "p" "x"
            (fun m => .ok (m + 1)) fault).store = [(manifestKey "p", 0)] ∧
        (updatePackage [(manifestKey "p", (0 : Nat))] "p" "x"
            (fun m => .ok (m + 1)) fault).locksAcquired = []) :=
  ⟨rfl, updatePackage_amended Nat [(manifestKey "p", 0)] "p" "x"
    (fun m => .ok (m + 1)) 0 rfl⟩

/-- C8 counterexample: with an empty cache and the secret blob holding
`"s3cr3t"`, `getSecret` downloads and returns the secret but leaves the cache
empty, and the immediately following `getSecret` performs another download —
contradicting "caches it, so that a subsequent getSecret returns the cached
value without another download". -/
theorem getSecret_no_caching_counterexample :
    (getSecret ⟨some "s3cr3t", ""⟩).value = "s3cr3t" ∧
    (getSecret ⟨some "s3cr3t", ""⟩).state.secret = "" ∧
    (getSecret (getSecret ⟨some "s3cr3t", ""⟩).state).downloads = 1 :=
  ⟨rfl, rfl, rfl⟩

/-- C8 amended: `getSecret` returns the cached secret if it is non-empty;
otherwise, under the secret mutex key, it checks the blob's existence,
returns the empty string if absent, and otherwise downloads and returns the
secret — without caching it, so a subsequent `getSecret` performs another
download; the cache is populated only by `setSecret`. -/
theorem getSecret_amended (s : SecretState) (v : String) :
    (s.secret ≠ "" → getSecret s = ⟨s.secret, s, 0⟩) ∧
    (s.secret = "" → s.blob = none → getSecret s = ⟨"", s, 0⟩) ∧
    (s.secret = "" → s.blob = some v →
      getSecret s = ⟨v, s, 1⟩ ∧ getSecret (getSecret s).state = ⟨v, s, 1⟩) ∧
    (v ≠ "" → getSecret (setSecret s v) = ⟨v, setSecret s v, 0⟩) := by
  refine ⟨?_, ?_, ?_, ?_⟩
  · intro h
    simp [getSecret, h]
  · intro h hb
    simp [getSecret, h, hb]
  · intro h hb
    constructor <;> simp [getSecret, h, hb]
  · intro h
    simp [getSecret, setSecret, h]

/-- Witness for C8's amended theorem: the download branch at a concrete
state, and the `setSecret`-then-`getSecret` cache hit. -/
theorem getSecret_amended_witness :
    (SecretState.mk (some "k") "").secret = "" ∧
    (SecretState.mk (some "k") "").blob = some "k" ∧
    (getSecret ⟨some "k", ""⟩ = ⟨"k", ⟨some "k", ""⟩, 1⟩ ∧
      getSecret (getSecret ⟨some "k", ""⟩).state = ⟨"k", ⟨some "k", ""⟩, 1⟩) ∧
    ("z" : String) ≠ "" ∧
    getSecret (setSecret ⟨none, ""⟩ "z") = ⟨"z", setSecret ⟨none, ""⟩ "z", 0⟩ :=
  ⟨rfl, rfl, (getSecret_amended ⟨some "k", ""⟩ "k").2.2.1 rfl rfl,
   by decide, (getSecret_amended ⟨none, ""⟩ "z").2.2.2 (by decide)⟩

/-- `jsSplitDash` always produces at least one segment (JS `split` never
returns an empty array, so `pop()!` is safe). -/
theorem jsSplitDash_ne_nil (l : List Char) : jsSplitDash l ≠ [] := by
  cases l with
  | nil => simp [jsSplitDash]
  | cons c rest =>
    rw [jsSplitDash]
    cases jsSplitDash rest with
    | nil => simp
    | cons p ps => by_cases hc : c = '-' <;> simp [hc]

/-- Splitting a dash-free string yields the single segment itself. -/
theorem jsSplitDash_no_dash (u : List Char) (h : '-' ∉ u) :
    jsSplitDash u = [u] := by
  induction u with
  | nil => rfl
  | cons c rest ih =>
    have hc : c ≠ '-' := fun hh => h (hh ▸ List.mem_cons_self c rest)
    have hr : '-' ∉ rest := fun hh => h (List.mem_cons_of_mem _ hh)
    simp [jsSplitDash, ih hr, hc]

/-- A string containing a dash splits into at least two segments. -/
theorem two_le_jsSplitDash_length (l : List Char) (h : '-' ∈ l) :
    2 ≤ (jsSplitDash l).length := by
  induction l with
  | nil => cases h
  | cons c rest ih =>
    simp only [jsSplitDash]
    cases hr : jsSplitDash rest with
    | nil => exact absurd hr (jsSplitDash_ne_nil rest)
    | cons p ps =>
      by_cases hc : c = '-'
      · simp [hc]
      · have hmem : '-' ∈ rest := by
          rcases List.mem_cons.mp h with h1 | h2
          · exact absurd h1.symm hc
          · exact h2
        have h2 := ih hmem
        rw [hr] at h2
        simp at h2
        simp [hc]
        omega

/-- The last segment of `xs ++ "-" ++ u` is the last segment of `u`. -/
theorem getLastD_jsSplitDash_append (xs u : List Char) :
    ((jsSplitDash (xs ++ '-' :: u)).getLastD []) =
      ((jsSplitDash u).getLastD []) := by
  induction xs with
  | nil =>
    simp only [List.nil_append, jsSplitDash]
    cases hr : jsSplitDash u with
    | nil => exact absurd hr (jsSplitDash_ne_nil u)
    | cons p ps => simp [List.getLastD_cons]
  | cons c xs ih =>
    simp only [List.cons_append, jsSplitDash]
    cases hr : jsSplitDash (xs ++ '-' :: u) with
    | nil => exact absurd hr (jsSplitDash_ne_nil _)
    | cons p ps =>
      have h2 : 2 ≤ (p :: ps).length := by
        rw [← hr]
        exact two_le_jsSplitDash_length _ (by simp)
      cases ps with
      | nil => simp at h2
      | cons q qs =>
        rw [hr] at ih
        by_cases hc : c = '-'
        · simpa [hc, List.getLastD_cons] using ih
        · simpa [hc, List.getLastD_cons] using ih

/-- For an archive name of the conventional shape `stem-version.tgz` with a
dash-free version, `getDirName` yields exactly the version. -/
theorem getDirNameChars_stem_version (xs v : List Char) (hv : '-' ∉ v) :
    getDirNameChars (xs ++ '-' :: (v ++ ['.', 't', 'g', 'z'])) = v := by
  have hnd : '-' ∉ v ++ ['.', 't', 'g', 'z'] := by
    intro hmem
    rcases List.mem_append.mp hmem with h1 | h2
    · exact hv h1
    · simp at h2
  unfold getDirNameChars jsSliceDropLast4
  rw [getLastD_jsSplitDash_append, jsSplitDash_no_dash _ hnd]
  show (v ++ ['.', 't', 'g', 'z']).take ((v ++ ['.', 't', 'g', 'z']).length - 4) = v
  rw [List.length_append]
  rw [show v.length + ['.', 't', 'g', 'z'].length - 4 = v.length from by simp]
  rw [List.take_left]

/-- C3 counterexample: two distinct archive file names that can belong to the
same package — versions `1.0.0-rc.1` and `2.0.0-rc.1` of package `a` — derive
the same prefix, `"rc.1"`: `getDirName` keeps only what follows the *last*
dash, so any two versions sharing a prerelease tag collide. -/
theorem getDirName_collision_counterexample :
    getDirName "a-1.0.0-rc.1.tgz" = getDirName "a-2.0.0-rc.1.tgz" ∧
    getDirName "a-1.0.0-rc.1.tgz" = "rc.1" ∧
    "a-1.0.0-rc.1.tgz" ≠ "a-2.0.0-rc.1.tgz" :=
  ⟨rfl, rfl, by decide⟩

/-- C3 amended: the derivation is a pure function of the archive file name,
but it is collision-free only on names of the conventional shape
`stem-version.tgz` whose version contains no dash: for two such names with
distinct versions the derived prefixes are distinct (a dash inside the
version — e.g. a prerelease tag — breaks collision-freeness, as the
counterexample shows). -/
theorem getDirName_collision_free_amended (s₁ s₂ v₁ v₂ : String)
    (h₁ : '-' ∉ v₁.data) (h₂ : '-' ∉ v₂.data) (hne : v₁ ≠ v₂) :
    getDirName (s₁ ++ "-" ++ v₁ ++ ".tgz") ≠ getDirName (s₂ ++ "-" ++ v₂ ++ ".tgz") := by
  have key : ∀ (s v : String), '-' ∉ v.data →
      getDirName (s ++ "-" ++ v ++ ".tgz") = v := by
    intro s v hv
    unfold getDirName
    have hdata : (s ++ "-" ++ v ++ ".tgz").data
        = s.data ++ '-' :: (v.data ++ ['.', 't', 'g', 'z']) := by
      simp [String.data_append]
    rw [hdata, getDirNameChars_stem_version s.data v.data hv]
  rw [key s₁ v₁ h₁, key s₂ v₂ h₂]
  exact hne

/-- Witness for C3's amended theorem: versions `"1.0.0"` and `"2.0.0"` of
package `a` are dash-free and distinct, and their derived prefixes differ. -/
theorem getDirName_collision_free_amended_witness :
    '-' ∉ ("1.0.0" : String).data ∧ '-' ∉ ("2.0.0" : String).data ∧
    ("1.0.0" : String) ≠ "2.0.0" ∧
    getDirName ("a" ++ "-" ++ "1.0.0" ++ ".tgz") ≠
      getDirName ("a" ++ "-" ++ "2.0.0" ++ ".tgz") :=
  ⟨by decide, by decide, by decide,
   getDirName_collision_free_amended "a" "a" "1.0.0" "2.0.0"
     (by decide) (by decide) (by decide)⟩

/-- Effect of a fault-free `add` on the observable index list: unchanged when
the name is present, appended otherwise; afterwards the name is present and
the call settled successfully. -/
theorem add_obsList (s : IdxState) (name : String) :
    obsList (add s name none none).state =
      (if name ∈ obsList s then obsList s else obsList s ++ [name]) ∧
    name ∈ obsList (add s name none none).state ∧
    (add s name none none).settled = some (.ok ()) := by
  obtain ⟨blob, cache⟩ := s
  cases cache with
  | some l =>
    by_cases h : name ∈ l <;>
      simp [add, getPackages, updatePackages, obsList, h]
  | none =>
    cases blob with
    | none => simp [add, getPackages, updatePackages, obsList]
    | some l =>
      by_cases h : name ∈ l <;>
        simp [add, getPackages, updatePackages, obsList, h]

/-- C6: `add` is idempotent and order-preserving.  For any state whose
observable list holds `name` at most once (all states reachable through the
API do), two consecutive `add name` calls leave the index containing `name`
exactly once; and from the empty index, `add "a"`, `add "b"`, `add "a"` makes
`get()` settle with exactly `["a", "b"]`. -/
theorem add_idempotent_and_scenario :
    (∀ (s : IdxState) (name : String), (obsList s).count name ≤ 1 →
      (obsList (add s name none none).state).count name = 1 ∧
      (obsList (add (add s name none none).state name none none).state).count name = 1) ∧
    (listPackages (add (add (add ⟨none, none⟩ "a" none none).state "b" none none).state
        "a" none none).state none).settled = some (.ok ["a", "b"]) := by
  constructor
  · intro s name h
    obtain ⟨ho, hm, _⟩ := add_obsList s name
    have h1 : (obsList (add s name none none).state).count name = 1 := by
      rw [ho]
      by_cases hc : name ∈ obsList s
      · rw [if_pos hc]
        have hpos : 0 < (obsList s).count name := List.count_pos_iff.mpr hc
        omega
      · rw [if_neg hc]
        have hz : (obsList s).count name = 0 := List.count_eq_zero.mpr hc
        simp [List.count_append, hz]
    refine ⟨h1, ?_⟩
    obtain ⟨ho2, _, _⟩ := add_obsList (add s name none none).state name
    rw [ho2, if_pos hm, h1]
  · rfl

/-- Witness for C6's general part: from the empty index, adding `"x"` twice
leaves it containing `"x"` exactly once. -/
theorem add_idempotent_witness :
    (obsList ⟨none, none⟩).count "x" ≤ 1 ∧
    ((obsList (add ⟨none, none⟩ "x" none none).state).count "x" = 1 ∧
      (obsList (add (add ⟨none, none⟩ "x" none none).state "x" none none).state).count "x" = 1) :=
  ⟨by decide, add_idempotent_and_scenario.1 ⟨none, none⟩ "x" (by decide)⟩

/-- C7 counterexample: a fresh instance (cache unset) over a blob holding
`["a"]`; `add "b"` with a failing upload.  The read step caches the
downloaded list before the persist fails, so after the failed call the cache
is `some ["a"]`, not its pre-call value `none` — the cache does not "retain
exactly its pre-call value". -/
theorem index_cache_counterexample :
    (add ⟨some ["a"], none⟩ "b" none (some ⟨500, none⟩)).state.cache = some ["a"] ∧
    (add ⟨some ["a"], none⟩ "b" none (some ⟨500, none⟩)).settled =
      some (.error ⟨500, none⟩) ∧
    (IdxState.mk (some ["a"]) none).cache ≠ some ["a"] :=
  ⟨rfl, rfl, by decide⟩

/-- C7 amended: starting from a coherent state (cache unset or equal to the
blob — an invariant of all reachable states), after a successful `add` or
`remove` the in-memory cache equals the list persisted in the blob; and when
the persist (upload) fails, the blob is unchanged, the state stays coherent,
and the cache retains its pre-call value whenever it was already populated —
but a previously unset cache may have been populated with the (unchanged)
blob's list by the read step. -/
theorem index_cache_coherence_amended (s : IdxState) (name : String)
    (e : RestError) (h : Coherent s) :
    ((add s name none none).state.cache = (add s name none none).state.blob) ∧
    ((remove s name none none).settled = some (.ok ()) →
      (remove s name none none).state.cache = (remove s name none none).state.blob) ∧
    ((add s name none (some e)).state.blob = s.blob ∧
      Coherent (add s name none (some e)).state ∧
      (s.cache ≠ none → (add s name none (some e)).state.cache = s.cache)) ∧
    ((remove s name none (some e)).state.blob = s.blob ∧
      Coherent (remove s name none (some e)).state ∧
      (s.cache ≠ none → (remove s name none (some e)).state.cache = s.cache)) := by
  obtain ⟨blob, cache⟩ := s
  simp only [Coherent] at h
  rcases h with hc | hc
  · subst hc
    cases blob with
    | none =>
      simp [add, remove, getPackages, updatePackages, Coherent]
    | some l =>
      by_cases hm : name ∈ l <;>
        simp [add, remove, getPackages, updatePackages, Coherent, hm]
  · cases cache with
    | none =>
      subst hc
      simp [add, remove, getPackages, updatePackages, Coherent]
    | some l =>
      subst hc
      by_cases hm : name ∈ l <;>
        simp [add, remove, getPackages, updatePackages, Coherent, hm]

/-- Witness for C7's amended theorem at the empty fresh state. -/
theorem index_cache_coherence_amended_witness :
    Coherent ⟨none, none⟩ ∧
    ((add ⟨none, none⟩ "x" none none).state.cache =
      (add ⟨none, none⟩ "x" none none).state.blob) ∧
    ((add ⟨none, none⟩ "x" none (some ⟨500, none⟩)).state.blob =
      (IdxState.mk none none).blob) :=
  ⟨Or.inl rfl,
   (index_cache_coherence_amended ⟨none, none⟩ "x" ⟨500, none⟩ (Or.inl rfl)).1,
   (index_cache_coherence_amended ⟨none, none⟩ "x" ⟨500, none⟩ (Or.inl rfl)).2.2.1.1⟩
